import Mathlib

/-!
Verification of the stremio-core-web model serializers
(`src/model/serializers.rs`, `src/model/serialize_ctx.rs`,
`src/model/serialize_streaming_server.rs`).

The serializers are pure projection functions from the stremio-core domain
state (catalogs, library, profile, meta details, streaming server,
notifications) into flattened view models.  We embed the data model and every
serializer function shallowly: Rust structs become Lean structures, `Loadable`
becomes a three-constructor inductive, `HashMap`s become association lists,
`Url` and `DateTime` become `String` and `Int`, and the external
navigation-link generation capability (the `deep_links` module, which is not
part of the serializer sources) is modelled as free constructors that record
exactly the inputs the serializers chose to invoke it with.  `WebEnv::now()`
is modelled as an explicit `now : Int` input, matching the spec's description
of the current-time source as an inbound external interface.
-/

namespace StremioWeb

/-- The `stremio_core::models::common::Loadable` — tri-state resolution wrapper. -/
inductive Loadable (T E : Type) where
  | loading : Loadable T E
  | ready (t : T) : Loadable T E
  | err (e : E) : Loadable T E
deriving DecidableEq

/-- The `Loadable::is_ready`. -/
def Loadable.is_ready {T E : Type} : Loadable T E → Bool
  | .ready _ => true
  | _ => false

/-- The `Loadable::is_err`. -/
def Loadable.is_err {T E : Type} : Loadable T E → Bool
  | .err _ => true
  | _ => false

/-- The `Loadable::is_loading`. -/
def Loadable.is_loading {T E : Type} : Loadable T E → Bool
  | .loading => true
  | _ => false

/-- An extra parameter of a resource path (`stremio_core::types::addon::ExtraValue`). -/
structure ExtraValue where
  name : String
  value : String
deriving DecidableEq

/-- The `stremio_core::types::addon::ResourcePath`. -/
structure ResourcePath where
  resource : String
  type : String
  id : String
  extra : List ExtraValue
deriving DecidableEq

/-- The `ResourcePath::get_extra_first_value`: first extra value with the given name. -/
def ResourcePath.get_extra_first_value (path : ResourcePath) (name : String) : Option String :=
  (path.extra.find? (fun ev => ev.name = name)).map (fun ev => ev.value)

/-- The `stremio_core::types::addon::ResourceRequest`: origin address (`base`,
a URL modelled as a string) plus resource path. -/
structure ResourceRequest where
  base : String
  path : ResourcePath
deriving DecidableEq

/-- Opaque upstream error payload (`stremio_core::models::common::ResourceError`);
the serializers pass it through without inspecting it. -/
structure ResourceError where
  message : String
deriving DecidableEq

/-- The `stremio_core::models::common::ResourceLoadable`: a request paired with its
current resolution state. -/
structure ResourceLoadable (T : Type) where
  request : ResourceRequest
  content : Loadable T ResourceError
deriving DecidableEq

/-- A link declared by a meta item (`stremio_core::types::resource::Link`);
`url` is modelled as a string. -/
structure Link where
  name : String
  category : String
  url : String
deriving DecidableEq

/-- An opaque stream payload (`stremio_core::types::resource::Stream`); the
serializers only ever pass streams through and hand them to the link
generator whole. -/
structure Stream where
  data : String
deriving DecidableEq

/-- A video of a meta item (`stremio_core::types::resource::Video`); only the
fields the serializers touch are modelled. -/
structure Video where
  id : String
  trailer_streams : List Stream
deriving DecidableEq

/-- The `MetaItem::behavior_hints` — only `has_scheduled_videos` is read. -/
structure BehaviorHints where
  has_scheduled_videos : Bool
deriving DecidableEq

/-- The `stremio_core::types::resource::MetaItem` restricted to the fields the
serializers read; `released` is a UTC timestamp modelled as `Option Int`. -/
structure MetaItem where
  id : String
  released : Option Int
  behavior_hints : BehaviorHints
  videos : List Video
  trailer_streams : List Stream
  links : List Link
deriving DecidableEq

/-- The `stremio_core::types::resource::MetaItemPreview` restricted to the fields
the serializers read. -/
structure MetaItemPreview where
  id : String
  trailer_streams : List Stream
deriving DecidableEq

/-- An addon manifest (`stremio_core::types::addon::ManifestPreview`); only the
name and logo are read. -/
structure Manifest where
  name : String
  logo : Option String
deriving DecidableEq

/-- An installed addon (`stremio_core::types::addon::Descriptor`): origin
address (`transport_url`) plus manifest. -/
structure Descriptor where
  transport_url : String
  manifest : Manifest
deriving DecidableEq

/-- A remote-catalog addon listing (`stremio_core::types::addon::DescriptorPreview`). -/
structure DescriptorPreview where
  transport_url : String
  manifest : Manifest
deriving DecidableEq

/-- The profile: the authoritative installed-addon list. -/
structure Profile where
  addons : List Descriptor
deriving DecidableEq

/-- A library entry with its tombstone flag (`stremio_core::types::library::LibraryItem`). -/
structure LibraryItem where
  id : String
  removed : Bool
deriving DecidableEq

/-- The library index (`ctx.library.items`, a `HashMap<String, LibraryItem>`
modelled as an association list). -/
structure LibraryBucket where
  items : List (String × LibraryItem)
deriving DecidableEq

/-- The `HashMap::get` on the library index: first entry with the given key. -/
def LibraryBucket.get (lib : LibraryBucket) (id : String) : Option LibraryItem :=
  (lib.items.find? (fun p => p.1 = id)).map (fun p => p.2)

/-- A notification record (`stremio_core::types::notifications::NotificationItem`),
opaque to the serializers. -/
structure NotificationItem where
  data : String
deriving DecidableEq

/-- The `ctx.notifications`: items grouped by meta id, each group a map from video
id to notification (both `HashMap`s modelled as association lists);
timestamps modelled as `Int`. -/
structure NotificationsBucket where
  items : List (String × List (String × NotificationItem))
  last_updated : Option Int
  created : Int
deriving DecidableEq

/-- The `stremio_core::models::ctx::Ctx` restricted to the fields the serializers
read: profile, library and notifications. -/
structure Ctx where
  profile : Profile
  library : LibraryBucket
  notifications : NotificationsBucket
deriving DecidableEq

/-- Modelled from the spec: the navigation-link generation capability
(`crate::model::deep_links`, not among the serializer sources) is "an opaque
external capability" and "a black box"; the core "only decides when and with
what input to invoke it".  Each `From` impl the serializers call becomes a
free constructor recording exactly the inputs passed to it. -/
inductive StreamDeepLinks where
  | ofStream (stream : Stream)
  | ofStreamAndRequests (stream : Stream) (stream_request : ResourceRequest)
      (meta_request : ResourceRequest)
deriving DecidableEq

/-- Modelled from the spec: opaque link bundle generated from a meta item, a
meta item preview, or a torrent resource path (see `StreamDeepLinks`). -/
inductive MetaItemDeepLinks where
  | ofMetaItem (meta_item : MetaItem)
  | ofMetaItemPreview (meta_item : MetaItemPreview)
  | ofResourcePath (resource_path : ResourcePath)
deriving DecidableEq

/-- Modelled from the spec: opaque link bundle generated from a video and its
originating source's request (see `StreamDeepLinks`). -/
inductive VideoDeepLinks where
  | ofVideoAndRequest (video : Video) (request : ResourceRequest)
deriving DecidableEq

/-- Modelled from the spec: opaque link bundle generated from a discover
resource request (see `StreamDeepLinks`). -/
inductive DiscoverDeepLinks where
  | ofRequest (request : ResourceRequest)
deriving DecidableEq

/-- The `stremio_core::models::installed_addons_with_filters::InstalledAddonsRequest`. -/
structure InstalledAddonsRequest where
  type : Option String
deriving DecidableEq

/-- Modelled from the spec: opaque link bundle for addon surfaces, generated
either from a resource request or an installed-addons request
(see `StreamDeepLinks`). -/
inductive AddonsDeepLinks where
  | ofRequest (request : ResourceRequest)
  | ofInstalledRequest (request : InstalledAddonsRequest)
deriving DecidableEq

/-- The `stremio_core::models::library_with_filters::Sort` (named `LibSort`
because `Sort` is reserved in Lean). -/
inductive LibSort where
  | lastWatched
  | name
  | timesWatched
deriving DecidableEq

/-- The `stremio_core::models::library_with_filters::LibraryRequest` as the
serializer consumes it (type and sort facets). -/
structure LibraryRequest where
  type : Option String
  sort : LibSort
deriving DecidableEq

/-- Modelled from the spec: opaque link bundle for the library surface,
scoped to a caller-supplied root path segment (see `StreamDeepLinks`). -/
inductive LibraryDeepLinks where
  | ofRoot (root : String)
  | ofRootAndRequest (root : String) (request : LibraryRequest)
deriving DecidableEq

/-- Modelled from the spec: opaque link bundle generated from a library item
(see `StreamDeepLinks`). -/
inductive LibraryItemDeepLinks where
  | ofLibraryItem (library_item : LibraryItem)
deriving DecidableEq

/-- Modelled from the spec: `DeepLinksExt::into_web_deep_links`
(`crate::model::deep_links_ext`, not among the serializer sources) converts a
core link bundle into its web form; modelled as a free wrapper constructor. -/
inductive WebMetaItemDeepLinks where
  | ofCore (deep_links : MetaItemDeepLinks)
deriving DecidableEq

/-- Modelled from the spec: `stremio_core::constants::META_RESOURCE_NAME`,
"the meta-resource name" used as the link category tag (the constant lives in
the external stremio-core crate; its value there is `"meta"`). -/
def META_RESOURCE_NAME : String := "meta"

/-- Modelled from the spec: `stremio_core::constants::SKIP_EXTRA_NAME`, the
name of the pagination skip extra parameter (the constant lives in the
external stremio-core crate; its value there is `"skip"`). -/
def SKIP_EXTRA_NAME : String := "skip"

/-- Modelled from the spec: `stremio_core::constants::CATALOG_PAGE_SIZE`, the
"fixed page size constant" of the pagination index (the constant lives in the
external stremio-core crate; its value there is `100`). -/
def CATALOG_PAGE_SIZE : Nat := 100

/-- The `catalogs_with_extra::Selected` as the serializer consumes it
(passed through verbatim). -/
structure CatalogsWithExtraSelected where
  type : Option String
  extra : List ExtraValue
deriving DecidableEq

/-- The `stremio_core::models::catalogs_with_extra::CatalogsWithExtra` restricted
to the fields the serializer reads. -/
structure CatalogsWithExtra where
  selected : Option CatalogsWithExtraSelected
  catalogs : List (ResourceLoadable (List MetaItemPreview))
deriving DecidableEq

/-- The `catalog_with_filters::Selected`: the selected resource request. -/
structure CatalogWithFiltersSelected where
  request : ResourceRequest
deriving DecidableEq

/-- A selectable type facet of `CatalogWithFilters`. -/
structure SelectableType where
  type : String
  selected : Bool
  request : ResourceRequest
deriving DecidableEq

/-- A selectable catalog facet of `CatalogWithFilters`. -/
structure SelectableCatalog where
  catalog : String
  addon_name : String
  selected : Bool
  request : ResourceRequest
deriving DecidableEq

/-- A selectable extra option of `CatalogWithFilters`. -/
structure SelectableExtraOption where
  value : Option String
  selected : Bool
  request : ResourceRequest
deriving DecidableEq

/-- A selectable extra dimension of `CatalogWithFilters`. -/
structure SelectableExtra where
  name : String
  is_required : Bool
  options : List SelectableExtraOption
deriving DecidableEq

/-- A selectable previous/next page of `CatalogWithFilters`. -/
structure SelectablePage where
  request : ResourceRequest
deriving DecidableEq

/-- The selectable facets of `CatalogWithFilters`. -/
structure Selectable where
  types : List SelectableType
  catalogs : List SelectableCatalog
  extra : List SelectableExtra
  prev_page : Option SelectablePage
  next_page : Option SelectablePage
deriving DecidableEq

/-- The `stremio_core::models::catalog_with_filters::CatalogWithFilters` restricted
to the fields the serializers read. -/
structure CatalogWithFilters (T : Type) where
  selected : Option CatalogWithFiltersSelected
  selectable : Selectable
  catalog : Option (ResourceLoadable (List T))
deriving DecidableEq

/-- The `meta_details::Selected` as the serializer consumes it
(passed through verbatim). -/
structure MetaDetailsSelected where
  meta_path : ResourcePath
  stream_path : Option ResourcePath
deriving DecidableEq

/-- The `stremio_core::models::meta_details::MetaDetails` restricted to the fields
the serializer reads. -/
structure MetaDetails where
  selected : Option MetaDetailsSelected
  meta_catalogs : List (ResourceLoadable MetaItem)
  streams_catalogs : List (ResourceLoadable (List Stream))
deriving DecidableEq

/-- The `library_with_filters::Selected`: the selected library request. -/
structure LibraryWithFiltersSelected where
  request : LibraryRequest
deriving DecidableEq

/-- A selectable type facet of `LibraryWithFilters`. -/
structure LibSelectableType where
  type : Option String
  selected : Bool
  request : LibraryRequest
deriving DecidableEq

/-- A selectable sort facet of `LibraryWithFilters`. -/
structure LibSelectableSort where
  sort : LibSort
  selected : Bool
  request : LibraryRequest
deriving DecidableEq

/-- The selectable facets of `LibraryWithFilters`. -/
structure LibSelectable where
  types : List LibSelectableType
  sorts : List LibSelectableSort
deriving DecidableEq

/-- The `stremio_core::models::library_with_filters::LibraryWithFilters` restricted
to the fields the serializer reads. -/
structure LibraryWithFilters where
  selected : Option LibraryWithFiltersSelected
  selectable : LibSelectable
  catalog : List LibraryItem
deriving DecidableEq

/-- The `stremio_core::models::continue_watching_preview::ContinueWatchingPreview`
restricted to the fields the serializer reads. -/
structure ContinueWatchingPreview where
  library_items : List LibraryItem
deriving DecidableEq

/-- The `installed_addons_with_filters::Selected` (passed through verbatim). -/
structure InstalledAddonsWithFiltersSelected where
  request : InstalledAddonsRequest
deriving DecidableEq

/-- A selectable type facet of `InstalledAddonsWithFilters`. -/
structure InstalledSelectableType where
  type : Option String
  selected : Bool
  request : InstalledAddonsRequest
deriving DecidableEq

/-- The selectable facets of `InstalledAddonsWithFilters`. -/
structure InstalledSelectable where
  types : List InstalledSelectableType
deriving DecidableEq

/-- The `stremio_core::models::installed_addons_with_filters::InstalledAddonsWithFilters`
restricted to the fields the serializer reads. -/
structure InstalledAddonsWithFilters where
  selected : Option InstalledAddonsWithFiltersSelected
  selectable : InstalledSelectable
  catalog : List DescriptorPreview
deriving DecidableEq

/-- Opaque environment error (`stremio_core::runtime::EnvError`), passed
through by the streaming-server serializer. -/
structure EnvError where
  message : String
deriving DecidableEq

/-- Opaque streaming-server selection state, passed through verbatim. -/
structure ServerSelected where
  data : String
deriving DecidableEq

/-- Opaque streaming-server settings, passed through verbatim. -/
structure ServerSettings where
  data : String
deriving DecidableEq

/-- Opaque playback device record, passed through verbatim. -/
structure PlaybackDevice where
  data : String
deriving DecidableEq

/-- Opaque streaming-server statistics, passed through verbatim. -/
structure Statistics where
  data : String
deriving DecidableEq

/-- The `stremio_core::models::streaming_server::StreamingServer` restricted to the
fields the serializer reads (`base_url` modelled as a string). -/
structure StreamingServer where
  selected : ServerSelected
  settings : Loadable ServerSettings EnvError
  base_url : Loadable String EnvError
  playback_devices : Loadable (List PlaybackDevice) EnvError
  torrent : Option (String × Loadable ResourcePath EnvError)
  statistics : Option (Loadable Statistics EnvError)
deriving DecidableEq

/-- The addon directory lookup the serializers inline at every use site:
`ctx.profile.addons.iter().find(|addon| addon.transport_url == base).map(|addon| &addon.manifest.name)`. -/
def resolveAddonName (profile : Profile) (base : String) : Option String :=
  (profile.addons.find? (fun addon => addon.transport_url = base)).map
    (fun addon => addon.manifest.name)

/-- Rust's `str::parse::<u32>()`: optional sign, at least one ASCII digit, and
the stepwise checked arithmetic of `from_str_radix` (which accepts a minus
sign on an unsigned type only when every digit is zero, and fails on
overflow past `2^32 - 1`). -/
def parseU32 (s : String) : Option Nat :=
  let signed : Bool × List Char :=
    match s.toList with
    | '+' :: rest => (false, rest)
    | '-' :: rest => (true, rest)
    | cs => (false, cs)
  let neg := signed.1
  let ds := signed.2
  if ds = [] then none
  else if ds.all (fun c => c.isDigit) then
    let n : Nat := ds.foldl (fun acc c => acc * 10 + (c.toNat - 48)) 0
    if neg then (if n = 0 then some 0 else none)
    else if n < 2 ^ 32 then some n else none
  else none

/-- Worker for `uniqueBy`, carrying the set of keys already emitted. -/
def uniqueByAux {α β : Type} [DecidableEq β] (key : α → β) :
    List β → List α → List α
  | _, [] => []
  | seen, x :: xs =>
    if key x ∈ seen then uniqueByAux key seen xs
    else x :: uniqueByAux key (key x :: seen) xs

/-- The `itertools::Itertools::unique_by`: keeps the first element for each key, in
order, and drops later elements with an already-seen key. -/
def uniqueBy {α β : Type} [DecidableEq β] (key : α → β) (l : List α) : List α :=
  uniqueByAux key [] l

/-- The representative selector of `serialize_meta_details` (the
`let meta_catalog = ...` binding): first Ready source, else — when every
source is Err — the first source, else the first Loading source. -/
def metaCatalogRepresentative (meta_catalogs : List (ResourceLoadable MetaItem)) :
    Option (ResourceLoadable MetaItem) :=
  match meta_catalogs.find? (fun catalog => catalog.content.is_ready) with
  | some catalog => some catalog
  | none =>
    if meta_catalogs.all (fun catalog => catalog.content.is_err) then
      meta_catalogs.head?
    else
      meta_catalogs.find? (fun catalog => catalog.content.is_loading)

/-- The meta-extension collection stage of `serialize_meta_details`: traverse
meta catalogs in order, take Ready ones, keep links in the meta-resource
category, and pair each with the originating request. -/
def collectMetaLinks (meta_catalogs : List (ResourceLoadable MetaItem)) :
    List (ResourceRequest × Link) :=
  meta_catalogs.flatMap (fun catalog =>
    match catalog.content with
    | .ready meta_item =>
        (meta_item.links.filter (fun link => link.category = META_RESOURCE_NAME)).map
          (fun link => (catalog.request, link))
    | _ => [])

/-- Output stream wrapper (`_Stream` in the serializers). -/
structure OutStream where
  stream : Stream
  deep_links : StreamDeepLinks
deriving DecidableEq

/-- The `_MetaItemPreview` of `serialize_catalogs_with_extra`. -/
structure CWEMetaItemPreview where
  meta_item : MetaItemPreview
  trailer_streams : List OutStream
  deep_links : MetaItemDeepLinks
deriving DecidableEq

/-- The `_ResourceLoadable` of `serialize_catalogs_with_extra`. -/
structure CWEResourceLoadable where
  request : ResourceRequest
  content : Loadable (List CWEMetaItemPreview) ResourceError
  addon_name : Option String
  deep_links : DiscoverDeepLinks
deriving DecidableEq

/-- The `_CatalogsWithExtra`, the output of `serialize_catalogs_with_extra`. -/
structure CWEOut where
  selected : Option CatalogsWithExtraSelected
  catalogs : List CWEResourceLoadable
deriving DecidableEq

/-- The `serialize_catalogs_with_extra` (serializers.rs lines 35-107). -/
def serialize_catalogs_with_extra (catalogs_with_extra : CatalogsWithExtra) (ctx : Ctx) :
    CWEOut :=
  { selected := catalogs_with_extra.selected
    catalogs := catalogs_with_extra.catalogs.map (fun catalog =>
      { request := catalog.request
        content :=
          match catalog.content with
          | .ready meta_items => .ready (meta_items.map (fun meta_item =>
              { meta_item := meta_item
                trailer_streams := meta_item.trailer_streams.map (fun stream =>
                  { stream := stream, deep_links := StreamDeepLinks.ofStream stream })
                deep_links := MetaItemDeepLinks.ofMetaItemPreview meta_item }))
          | .loading => .loading
          | .err error => .err error
        addon_name := resolveAddonName ctx.profile catalog.request.base
        deep_links := DiscoverDeepLinks.ofRequest catalog.request }) }

/-- The `_LibraryItem` output wrapper of the library serializers. -/
structure LibItemOut where
  library_item : LibraryItem
  deep_links : LibraryItemDeepLinks
deriving DecidableEq

/-- The `_SelectableType` of `serialize_library`. -/
structure LibSelectableTypeOut where
  type : Option String
  selected : Bool
  deep_links : LibraryDeepLinks
deriving DecidableEq

/-- The `_SelectableSort` of `serialize_library`. -/
structure LibSelectableSortOut where
  sort : LibSort
  selected : Bool
  deep_links : LibraryDeepLinks
deriving DecidableEq

/-- The `_Selectable` of `serialize_library`. -/
structure LibSelectableOut where
  types : List LibSelectableTypeOut
  sorts : List LibSelectableSortOut
deriving DecidableEq

/-- The `_LibraryWithFilters`, the output of `serialize_library`. -/
structure LibOut where
  selected : Option LibraryWithFiltersSelected
  selectable : LibSelectableOut
  catalog : List LibItemOut
deriving DecidableEq

/-- The `serialize_library` (serializers.rs lines 109-176). -/
def serialize_library (library : LibraryWithFilters) (root : String) : LibOut :=
  { selected := library.selected
    selectable :=
      { types := library.selectable.types.map (fun selectable_type =>
          { type := selectable_type.type
            selected := selectable_type.selected
            deep_links := LibraryDeepLinks.ofRootAndRequest root selectable_type.request })
        sorts := library.selectable.sorts.map (fun selectable_sort =>
          { sort := selectable_sort.sort
            selected := selectable_sort.selected
            deep_links := LibraryDeepLinks.ofRootAndRequest root selectable_sort.request }) }
    catalog := library.catalog.map (fun library_item =>
      { library_item := library_item
        deep_links := LibraryItemDeepLinks.ofLibraryItem library_item }) }

/-- The `_ContinueWatchingPreview`, the output of `serialize_continue_watching_preview`. -/
structure CWOut where
  library_items : List LibItemOut
  deep_links : LibraryDeepLinks
deriving DecidableEq

/-- The `serialize_continue_watching_preview` (serializers.rs lines 178-206). -/
def serialize_continue_watching_preview (continue_watching_preview : ContinueWatchingPreview) :
    CWOut :=
  { library_items := continue_watching_preview.library_items.map (fun library_item =>
      { library_item := library_item
        deep_links := LibraryItemDeepLinks.ofLibraryItem library_item })
    deep_links := LibraryDeepLinks.ofRoot "continuewatching" }

/-- The `_SelectableExtraOption` of `serialize_discover`. -/
structure DiscSelectableExtraOption where
  value : Option String
  selected : Bool
  deep_links : DiscoverDeepLinks
deriving DecidableEq

/-- The `_SelectableExtra` of `serialize_discover`. -/
structure DiscSelectableExtra where
  name : String
  is_required : Bool
  options : List DiscSelectableExtraOption
deriving DecidableEq

/-- The `_SelectableCatalog` of `serialize_discover`. -/
structure DiscSelectableCatalog where
  catalog : String
  addon_name : String
  selected : Bool
  request : ResourceRequest
  deep_links : DiscoverDeepLinks
deriving DecidableEq

/-- The `_SelectableType` of `serialize_discover`. -/
structure DiscSelectableType where
  type : String
  selected : Bool
  request : ResourceRequest
  deep_links : DiscoverDeepLinks
deriving DecidableEq

/-- The `_SelectablePage` of `serialize_discover`. -/
structure DiscSelectablePage where
  deep_links : DiscoverDeepLinks
deriving DecidableEq

/-- The `_Selectable` of `serialize_discover`. -/
structure DiscSelectable where
  types : List DiscSelectableType
  catalogs : List DiscSelectableCatalog
  extra : List DiscSelectableExtra
  prev_page : Option DiscSelectablePage
  next_page : Option DiscSelectablePage
deriving DecidableEq

/-- The `_MetaItemPreview` of `serialize_discover` (carries `in_library`). -/
structure DiscMetaItemPreview where
  meta_item : MetaItemPreview
  trailer_streams : List OutStream
  in_library : Bool
  deep_links : MetaItemDeepLinks
deriving DecidableEq

/-- The `_ResourceLoadable` of `serialize_discover`. -/
structure DiscResourceLoadable where
  content : Loadable (List DiscMetaItemPreview) ResourceError
  addon_name : Option String
deriving DecidableEq

/-- The `_CatalogWithFilters`, the output of `serialize_discover`; `page` is a
`u32` modelled as `Nat` (with a 100-entry page size it never wraps). -/
structure DiscOut where
  selected : Option CatalogWithFiltersSelected
  selectable : DiscSelectable
  catalog : Option DiscResourceLoadable
  default_request : Option ResourceRequest
  page : Nat
deriving DecidableEq

/-- The `serialize_discover` (serializers.rs lines 208-401). -/
def serialize_discover (discover : CatalogWithFilters MetaItemPreview) (ctx : Ctx) : DiscOut :=
  { selected := discover.selected
    selectable :=
      { types := discover.selectable.types.map (fun selectable_type =>
          { type := selectable_type.type
            selected := selectable_type.selected
            request := selectable_type.request
            deep_links := DiscoverDeepLinks.ofRequest selectable_type.request })
        catalogs := discover.selectable.catalogs.map (fun selectable_catalog =>
          { catalog := selectable_catalog.catalog
            addon_name := selectable_catalog.addon_name
            selected := selectable_catalog.selected
            request := selectable_catalog.request
            deep_links := DiscoverDeepLinks.ofRequest selectable_catalog.request })
        extra := discover.selectable.extra.map (fun selectable_extra =>
          { name := selectable_extra.name
            is_required := selectable_extra.is_required
            options := selectable_extra.options.map (fun option =>
              { value := option.value
                selected := option.selected
                deep_links := DiscoverDeepLinks.ofRequest option.request }) })
        prev_page := discover.selectable.prev_page.map (fun prev_page =>
          { deep_links := DiscoverDeepLinks.ofRequest prev_page.request })
        next_page := discover.selectable.next_page.map (fun next_page =>
          { deep_links := DiscoverDeepLinks.ofRequest next_page.request }) }
    catalog := discover.catalog.map (fun catalog =>
      { content :=
          match catalog.content with
          | .ready meta_items => .ready (meta_items.map (fun meta_item =>
              { meta_item := meta_item
                trailer_streams := meta_item.trailer_streams.map (fun stream =>
                  { stream := stream, deep_links := StreamDeepLinks.ofStream stream })
                in_library := ((ctx.library.get meta_item.id).map
                  (fun library_item => !library_item.removed)).getD false
                deep_links := MetaItemDeepLinks.ofMetaItemPreview meta_item }))
          | .loading => .loading
          | .err error => .err error
        addon_name := resolveAddonName ctx.profile catalog.request.base })
    default_request := discover.selectable.types.head?.map (fun first_type => first_type.request)
    page := ((discover.selected.bind (fun selected =>
        ((selected.request.path.get_extra_first_value SKIP_EXTRA_NAME).bind
          (fun value => parseU32 value)).map
          (fun skip => 1 + skip / CATALOG_PAGE_SIZE))).getD 1) }

/-- The `_SelectableCatalog` of `serialize_remote_addons`. -/
structure RASelectableCatalog where
  catalog : String
  addon_name : String
  selected : Bool
  request : ResourceRequest
  deep_links : AddonsDeepLinks
deriving DecidableEq

/-- The `_SelectableType` of `serialize_remote_addons`. -/
structure RASelectableType where
  type : String
  selected : Bool
  request : ResourceRequest
  deep_links : AddonsDeepLinks
deriving DecidableEq

/-- The `_Selectable` of `serialize_remote_addons`. -/
structure RASelectable where
  catalogs : List RASelectableCatalog
  types : List RASelectableType
deriving DecidableEq

/-- The `_DescriptorPreview` of `serialize_remote_addons` (carries `installed`). -/
structure RADescriptorPreview where
  addon : DescriptorPreview
  installed : Bool
deriving DecidableEq

/-- The `_ResourceLoadable` of `serialize_remote_addons`. -/
structure RAResourceLoadable where
  content : Loadable (List RADescriptorPreview) ResourceError
deriving DecidableEq

/-- The `_CatalogWithFilters`, the output of `serialize_remote_addons`. -/
structure RAOut where
  selected : Option CatalogWithFiltersSelected
  selectable : RASelectable
  catalog : Option RAResourceLoadable
deriving DecidableEq

/-- The `serialize_remote_addons` (serializers.rs lines 403-501).  The `any`
closure compares each installed addon's origin address with the catalog
entry's origin address (the outer `addon` binding). -/
def serialize_remote_addons (remote_addons : CatalogWithFilters DescriptorPreview) (ctx : Ctx) :
    RAOut :=
  { selected := remote_addons.selected
    selectable :=
      { catalogs := remote_addons.selectable.catalogs.map (fun selectable_catalog =>
          { catalog := selectable_catalog.catalog
            addon_name := selectable_catalog.addon_name
            selected := selectable_catalog.selected
            request := selectable_catalog.request
            deep_links := AddonsDeepLinks.ofRequest selectable_catalog.request })
        types := remote_addons.selectable.types.map (fun selectable_type =>
          { type := selectable_type.type
            selected := selectable_type.selected
            request := selectable_type.request
            deep_links := AddonsDeepLinks.ofRequest selectable_type.request }) }
    catalog := remote_addons.catalog.map (fun catalog =>
      { content :=
          match catalog.content with
          | .ready addons => .ready (addons.map (fun addon =>
              { addon := addon
                installed := (ctx.profile.addons.map
                    (fun installed_addon => installed_addon.transport_url)).any
                  (fun transport_url => transport_url = addon.transport_url) }))
          | .loading => .loading
          | .err error => .err error }) }

/-- The `_DescriptorPreview` of `serialize_installed_addons`. -/
structure IADescriptorPreview where
  addon : DescriptorPreview
  installed : Bool
deriving DecidableEq

/-- The `_SelectableType` of `serialize_installed_addons`. -/
structure IASelectableType where
  type : Option String
  selected : Bool
  deep_links : AddonsDeepLinks
deriving DecidableEq

/-- The `_SelectableCatalog` of `serialize_installed_addons`. -/
structure IASelectableCatalog where
  catalog : String
  selected : Bool
  deep_links : AddonsDeepLinks
deriving DecidableEq

/-- The `_Selectable` of `serialize_installed_addons`. -/
structure IASelectable where
  types : List IASelectableType
  catalogs : List IASelectableCatalog
deriving DecidableEq

/-- The `_InstalledAddonsWithFilters`, the output of `serialize_installed_addons`. -/
structure IAOut where
  selected : Option InstalledAddonsWithFiltersSelected
  selectable : IASelectable
  catalog : List IADescriptorPreview
deriving DecidableEq

/-- The `serialize_installed_addons` (serializers.rs lines 503-567). -/
def serialize_installed_addons (installed_addons : InstalledAddonsWithFilters) : IAOut :=
  { selected := installed_addons.selected
    selectable :=
      { types := installed_addons.selectable.types.map (fun selectable_type =>
          { type := selectable_type.type
            selected := selectable_type.selected
            deep_links := AddonsDeepLinks.ofInstalledRequest selectable_type.request })
        catalogs := [{ catalog := "Installed"
                       selected := installed_addons.selected.isSome
                       deep_links := AddonsDeepLinks.ofInstalledRequest { type := none } }] }
    catalog := installed_addons.catalog.map (fun addon =>
      { addon := addon, installed := true }) }

/-- The `_ManifestPreview` of `serialize_meta_details`. -/
structure MDManifestPreview where
  name : String
  logo : Option String
deriving DecidableEq

/-- The `_DescriptorPreview` of `serialize_meta_details`. -/
structure MDDescriptorPreview where
  manifest : MDManifestPreview
  transport_url : String
deriving DecidableEq

/-- The `_Video` of `serialize_meta_details`; `watched`/`progress` are the
documented stubs (`// TODO use library` in the source). -/
structure MDVideo where
  video : Video
  trailer_streams : List OutStream
  upcomming : Bool
  watched : Bool
  progress : Option Nat
  scheduled : Bool
  deep_links : VideoDeepLinks
deriving DecidableEq

/-- The `_MetaItem` of `serialize_meta_details`. -/
structure MDMetaItem where
  meta_item : MetaItem
  videos : List MDVideo
  trailer_streams : List OutStream
  in_library : Bool
  deep_links : MetaItemDeepLinks
deriving DecidableEq

/-- The `_MetaExtension` of `serialize_meta_details`. -/
structure MDMetaExtension where
  url : String
  name : String
  addon : MDDescriptorPreview
deriving DecidableEq

/-- The `_ResourceLoadable` of `serialize_meta_details`. -/
structure MDResourceLoadable (T : Type) where
  content : Loadable T ResourceError
  addon_name : Option String
deriving DecidableEq

/-- The `_MetaDetails`, the output of `serialize_meta_details`. -/
structure MDOut where
  selected : Option MetaDetailsSelected
  meta_catalog : Option (MDResourceLoadable MDMetaItem)
  streams_catalogs : List (MDResourceLoadable (List OutStream))
  meta_extensions : List MDMetaExtension
deriving DecidableEq

/-- The addon-resolution stage of the meta-extension pipeline (the `filter_map`
closure of serializers.rs lines 754-770): resolve the owning addon of a
(request, link) pair, dropping the pair when no installed addon's origin
address matches the request's base. -/
def resolveMetaExtension (profile : Profile) (p : ResourceRequest × Link) :
    Option MDMetaExtension :=
  (profile.addons.find? (fun addon => addon.transport_url = p.1.base)).map
    (fun addon =>
      { url := p.2.url
        name := p.2.name
        addon :=
          { transport_url := addon.transport_url
            manifest := { name := addon.manifest.name, logo := addon.manifest.logo } } })

/-- The `meta_extensions` field of `serialize_meta_details` (serializers.rs
lines 740-771): collect, dedup by link URL (first occurrence wins), then
resolve the owning addon and drop entries whose request's origin address
matches no installed addon. -/
def serializeMetaExtensions (profile : Profile)
    (meta_catalogs : List (ResourceLoadable MetaItem)) : List MDMetaExtension :=
  (uniqueBy (fun p => p.2.url) (collectMetaLinks meta_catalogs)).filterMap
    (resolveMetaExtension profile)

/-- The `serialize_meta_details` (serializers.rs lines 569-774); `now` is
`WebEnv::now()`, the current-time source, passed explicitly. -/
def serialize_meta_details (meta_details : MetaDetails) (ctx : Ctx) (now : Int) : MDOut :=
  { selected := meta_details.selected
    meta_catalog := (metaCatalogRepresentative meta_details.meta_catalogs).map (fun catalog =>
      { content :=
          match catalog.content with
          | .ready meta_item => .ready
              { meta_item := meta_item
                videos := meta_item.videos.map (fun video =>
                  { video := video
                    trailer_streams := video.trailer_streams.map (fun stream =>
                      { stream := stream, deep_links := StreamDeepLinks.ofStream stream })
                    upcomming := meta_item.behavior_hints.has_scheduled_videos &&
                      ((meta_item.released.map (fun released => decide (now < released))).getD true)
                    watched := false
                    progress := none
                    scheduled := meta_item.behavior_hints.has_scheduled_videos
                    deep_links := VideoDeepLinks.ofVideoAndRequest video catalog.request })
                trailer_streams := meta_item.trailer_streams.map (fun stream =>
                  { stream := stream, deep_links := StreamDeepLinks.ofStream stream })
                in_library := ((ctx.library.get meta_item.id).map
                  (fun library_item => !library_item.removed)).getD false
                deep_links := MetaItemDeepLinks.ofMetaItem meta_item }
          | .loading => .loading
          | .err error => .err error
        addon_name := resolveAddonName ctx.profile catalog.request.base })
    streams_catalogs := meta_details.streams_catalogs.map (fun catalog =>
      { content :=
          match catalog.content with
          | .ready streams => .ready (streams.map (fun stream =>
              { stream := stream
                deep_links :=
                  match metaCatalogRepresentative meta_details.meta_catalogs with
                  | none => StreamDeepLinks.ofStream stream
                  | some mc =>
                      StreamDeepLinks.ofStreamAndRequests stream catalog.request mc.request }))
          | .loading => .loading
          | .err error => .err error
        addon_name := resolveAddonName ctx.profile catalog.request.base })
    meta_extensions := serializeMetaExtensions ctx.profile meta_details.meta_catalogs }

/-- The `StreamingServer`, the output model of `serialize_streaming_server`. -/
structure SSOut where
  selected : ServerSelected
  settings : Loadable ServerSettings EnvError
  base_url : Loadable String EnvError
  playback_devices : Loadable (List PlaybackDevice) EnvError
  torrent : Option (String × Loadable (ResourcePath × WebMetaItemDeepLinks) EnvError)
  statistics : Option (Loadable Statistics EnvError)
deriving DecidableEq

/-- The `serialize_streaming_server` (serialize_streaming_server.rs lines 27-50):
a Ready torrent resource is augmented with a generated link bundle;
Loading/Err pass through unchanged. -/
def serialize_streaming_server (streaming_server : StreamingServer) : SSOut :=
  { selected := streaming_server.selected
    settings := streaming_server.settings
    base_url := streaming_server.base_url
    playback_devices := streaming_server.playback_devices
    torrent := streaming_server.torrent.map (fun p =>
      (p.1,
        match p.2 with
        | .ready resource_path => .ready (resource_path,
            WebMetaItemDeepLinks.ofCore (MetaItemDeepLinks.ofResourcePath resource_path))
        | .loading => .loading
        | .err error => .err error))
    statistics := streaming_server.statistics }

/-- The `model::Notifications`, the notifications part of `serialize_ctx`'s output. -/
structure CtxNotificationsOut where
  items : List (String × List NotificationItem)
  last_updated : Option Int
  created : Int
deriving DecidableEq

/-- The `model::Ctx`, the output of `serialize_ctx`. -/
structure CtxOut where
  profile : Profile
  notifications : CtxNotificationsOut
deriving DecidableEq

/-- The `serialize_ctx` via `model::Ctx::from` (serialize_ctx.rs lines 37-55):
keeps the profile and regroups the notification index by meta id, flattening
each per-meta map to the list of its notification records. -/
def serialize_ctx (ctx : Ctx) : CtxOut :=
  { profile := ctx.profile
    notifications :=
      { items := ctx.notifications.items.map (fun p => (p.1, p.2.map (fun q => q.2)))
        last_updated := ctx.notifications.last_updated
        created := ctx.notifications.created } }

/-- A `Loadable` is exactly one of the three variants: Err excludes Ready, and
a value that is neither Ready nor Err is Loading. -/
theorem Loadable.state_trichotomy {T E : Type} (x : Loadable T E) :
    (x.is_err = true → x.is_ready = false) ∧
    (x.is_ready = false → x.is_err = false → x.is_loading = true) := by
  cases x <;> simp [Loadable.is_ready, Loadable.is_err, Loadable.is_loading]

/-- The `List.find?` returns exactly the first element satisfying the predicate:
the list splits around the result with nothing satisfying the predicate
before it. -/
theorem find?_eq_some_first {α : Type} (p : α → Bool) (l : List α) (a : α) :
    l.find? p = some a ↔
      p a = true ∧ ∃ l₁ l₂, l = l₁ ++ a :: l₂ ∧ ∀ b ∈ l₁, p b = false := by
  induction l with
  | nil => simp
  | cons x xs ih =>
    by_cases hx : p x = true
    · rw [List.find?_cons_of_pos _ hx]
      constructor
      · intro h
        obtain rfl : x = a := by injection h
        exact ⟨hx, [], xs, rfl, by simp⟩
      · rintro ⟨hpa, l₁, l₂, hsplit, hbefore⟩
        cases l₁ with
        | nil =>
          obtain ⟨rfl, rfl⟩ : x = a ∧ xs = l₂ := by simpa using hsplit
          rfl
        | cons c l₁ =>
          obtain ⟨rfl, hsplit2⟩ : x = c ∧ xs = l₁ ++ a :: l₂ := by simpa using hsplit
          have hfalse := hbefore x (by simp)
          rw [hfalse] at hx
          exact absurd hx (by simp)
    · rw [List.find?_cons_of_neg _ hx, ih]
      constructor
      · rintro ⟨hpa, l₁, l₂, hsplit, hbefore⟩
        refine ⟨hpa, x :: l₁, l₂, by rw [hsplit]; rfl, ?_⟩
        intro b hb
        rcases List.mem_cons.mp hb with rfl | hb
        · exact Bool.not_eq_true _ ▸ Bool.eq_false_iff.mpr (fun h => hx (h ▸ rfl))
        · exact hbefore b hb
      · rintro ⟨hpa, l₁, l₂, hsplit, hbefore⟩
        cases l₁ with
        | nil =>
          obtain ⟨rfl, rfl⟩ : x = a ∧ xs = l₂ := by simpa using hsplit
          exact absurd hpa hx
        | cons c l₁ =>
          obtain ⟨rfl, hsplit2⟩ : x = c ∧ xs = l₁ ++ a :: l₂ := by simpa using hsplit
          exact ⟨hpa, l₁, l₂, hsplit2, fun b hb => hbefore b (List.mem_cons_of_mem _ hb)⟩

/-- Specification-side first-occurrence deduplication: keep the first
occurrence of each element, drop later duplicates, preserve relative order
(the head is kept and its later occurrences are removed from the deduped
tail). -/
def dedupFirst {β : Type} [DecidableEq β] : List β → List β
  | [] => []
  | u :: rest => u :: (dedupFirst rest).filter (fun v => decide (v ≠ u))

/-- The `dedupFirst` on the empty list. -/
theorem dedupFirst_nil {β : Type} [DecidableEq β] : dedupFirst ([] : List β) = [] := rfl

/-- The `dedupFirst` on a cons. -/
theorem dedupFirst_cons {β : Type} [DecidableEq β] (u : β) (rest : List β) :
    dedupFirst (u :: rest) = u :: (dedupFirst rest).filter (fun v => decide (v ≠ u)) := rfl

/-- First-occurrence deduplication commutes with filtering. -/
theorem dedupFirst_filter {β : Type} [DecidableEq β] (p : β → Bool) (l : List β) :
    dedupFirst (l.filter p) = (dedupFirst l).filter p := by
  induction l with
  | nil => rfl
  | cons u rest ih =>
    rw [List.filter_cons]
    by_cases hu : p u = true
    · rw [if_pos hu, dedupFirst_cons, dedupFirst_cons, List.filter_cons, if_pos hu, ih,
        List.filter_filter, List.filter_filter]
      congr 1
      apply List.filter_congr
      intro v _
      exact Bool.and_comm _ _
    · rw [if_neg hu, dedupFirst_cons, List.filter_cons, if_neg hu, ih, List.filter_filter]
      apply List.filter_congr
      intro v _
      by_cases hv : v = u
      · subst hv
        simp [Bool.eq_false_iff.mpr hu]
      · simp [hv]

/-- Filtering out the members of `y :: seen` is filtering out the members of
`seen` and then the occurrences of `y`. -/
theorem filter_not_mem_cons {β : Type} [DecidableEq β] (y : β) (seen : List β) (m : List β) :
    m.filter (fun u => decide (u ∉ y :: seen))
      = (m.filter (fun u => decide (u ∉ seen))).filter (fun v => decide (v ≠ y)) := by
  rw [List.filter_filter]
  apply List.filter_congr
  intro u _
  by_cases h1 : u = y <;> by_cases h2 : u ∈ seen <;> simp [h1, h2]

/-- The keys of `uniqueByAux` are the first-occurrence dedup of the keys not
already seen. -/
theorem map_uniqueByAux {α β : Type} [DecidableEq β] (key : α → β) (seen : List β)
    (l : List α) :
    (uniqueByAux key seen l).map key
      = dedupFirst ((l.map key).filter (fun u => decide (u ∉ seen))) := by
  induction l generalizing seen with
  | nil => simp [uniqueByAux, dedupFirst_nil]
  | cons x xs ih =>
    rw [uniqueByAux]
    by_cases hx : key x ∈ seen
    · rw [if_pos hx, ih seen]
      simp [List.filter_cons, hx]
    · rw [if_neg hx]
      simp only [List.map_cons, List.filter_cons]
      rw [if_pos (show decide (key x ∉ seen) = true from by simpa using hx)]
      rw [dedupFirst_cons]
      congr 1
      rw [ih (key x :: seen), filter_not_mem_cons]
      exact dedupFirst_filter _ _

/-- The keys of `uniqueBy` are exactly the first-occurrence dedup of the keys,
in order. -/
theorem map_uniqueBy {α β : Type} [DecidableEq β] (key : α → β) (l : List α) :
    (uniqueBy key l).map key = dedupFirst (l.map key) := by
  rw [uniqueBy, map_uniqueByAux]
  congr 1
  simp

/-- Every element emitted by `uniqueByAux` is the first element of the input
with its key (and its key was not already seen). -/
theorem mem_uniqueByAux {α β : Type} [DecidableEq β] (key : α → β) (seen : List β)
    (l : List α) (q : α) (hq : q ∈ uniqueByAux key seen l) :
    key q ∉ seen ∧ ∃ l₁ l₂, l = l₁ ++ q :: l₂ ∧ ∀ b ∈ l₁, key b ≠ key q := by
  induction l generalizing seen with
  | nil => simp [uniqueByAux] at hq
  | cons x xs ih =>
    rw [uniqueByAux] at hq
    by_cases hx : key x ∈ seen
    · rw [if_pos hx] at hq
      obtain ⟨hnot, l₁, l₂, hsplit, hbefore⟩ := ih seen hq
      refine ⟨hnot, x :: l₁, l₂, by rw [hsplit]; rfl, ?_⟩
      intro b hb
      rcases List.mem_cons.mp hb with rfl | hb
      · intro heq; rw [heq] at hx; exact hnot hx
      · exact hbefore b hb
    · rw [if_neg hx] at hq
      rcases List.mem_cons.mp hq with rfl | hq
      · exact ⟨hx, [], xs, rfl, by simp⟩
      · obtain ⟨hnot, l₁, l₂, hsplit, hbefore⟩ := ih (key x :: seen) hq
        have hne : key q ≠ key x := fun h => hnot (by rw [h]; exact List.mem_cons_self _ _)
        have hnotseen : key q ∉ seen := fun h => hnot (List.mem_cons_of_mem _ h)
        refine ⟨hnotseen, x :: l₁, l₂, by rw [hsplit]; rfl, ?_⟩
        intro b hb
        rcases List.mem_cons.mp hb with rfl | hb
        · exact fun h => hne h.symm
        · exact hbefore b hb

/-- A list has at most one first occurrence per key: two elements that each
split the list with no equal-keyed element before them, and whose keys agree,
are the same element. -/
theorem first_occurrence_unique {α β : Type} (key : α → β) (x y : α) :
    ∀ (l₁ l₂ m₁ m₂ : List α), l₁ ++ x :: l₂ = m₁ ++ y :: m₂ →
      (∀ b ∈ l₁, key b ≠ key x) → (∀ b ∈ m₁, key b ≠ key y) → key x = key y → x = y := by
  intro l₁
  induction l₁ with
  | nil =>
    intro l₂ m₁ m₂ heq h1 h2 hk
    cases m₁ with
    | nil =>
      have : x = y ∧ l₂ = m₂ := by simpa using heq
      exact this.1
    | cons d m₁ =>
      obtain ⟨rfl, heq2⟩ : x = d ∧ l₂ = m₁ ++ y :: m₂ := by simpa using heq
      exact absurd hk (h2 x (by simp))
  | cons c l₁ ih =>
    intro l₂ m₁ m₂ heq h1 h2 hk
    cases m₁ with
    | nil =>
      obtain ⟨rfl, heq2⟩ : c = y ∧ l₁ ++ x :: l₂ = m₂ := by simpa using heq
      exact absurd hk.symm (by simpa using h1 c (by simp))
    | cons d m₁ =>
      obtain ⟨rfl, heq2⟩ : c = d ∧ l₁ ++ x :: l₂ = m₁ ++ y :: m₂ := by simpa using heq
      exact ih l₂ m₁ m₂ heq2 (fun b hb => h1 b (List.mem_cons_of_mem _ hb))
        (fun b hb => h2 b (List.mem_cons_of_mem _ hb)) hk

/-- C1: The Representative Selector over the ordered list of meta-catalog
sources returns: for every list containing at least one Ready entry, the
first Ready entry; for every non-empty list in which every entry is Err, the
first entry in original order; for every non-empty list with no Ready entry
and not all entries Err, the first Loading entry; and for the empty list, no
representative. -/
theorem representative_selector_policy (l : List (ResourceLoadable MetaItem)) :
    ((∃ c ∈ l, c.content.is_ready = true) →
      ∃ c l₁ l₂, metaCatalogRepresentative l = some c ∧ l = l₁ ++ c :: l₂ ∧
        c.content.is_ready = true ∧ ∀ b ∈ l₁, b.content.is_ready = false) ∧
    (l ≠ [] → (∀ c ∈ l, c.content.is_err = true) →
      ∃ c l₂, l = c :: l₂ ∧ metaCatalogRepresentative l = some c) ∧
    ((∀ c ∈ l, c.content.is_ready = false) → (∃ c ∈ l, c.content.is_err = false) →
      ∃ c l₁ l₂, metaCatalogRepresentative l = some c ∧ l = l₁ ++ c :: l₂ ∧
        c.content.is_loading = true ∧ ∀ b ∈ l₁, b.content.is_loading = false) ∧
    metaCatalogRepresentative [] = none := by
  refine ⟨?_, ?_, ?_, rfl⟩
  · rintro ⟨c, hc, hready⟩
    have hsome : (l.find? (fun catalog => catalog.content.is_ready)).isSome := by
      rw [List.find?_isSome]
      exact ⟨c, hc, hready⟩
    obtain ⟨c₀, hc₀⟩ := Option.isSome_iff_exists.mp hsome
    obtain ⟨hp, l₁, l₂, hsplit, hbefore⟩ := (find?_eq_some_first _ l c₀).mp hc₀
    refine ⟨c₀, l₁, l₂, ?_, hsplit, hp, hbefore⟩
    unfold metaCatalogRepresentative
    rw [hc₀]
  · intro hne hall
    have hnone : l.find? (fun catalog => catalog.content.is_ready) = none := by
      rw [List.find?_eq_none]
      intro c hc
      simp [(Loadable.state_trichotomy c.content).1 (hall c hc)]
    cases l with
    | nil => exact absurd rfl hne
    | cons c l₂ =>
      refine ⟨c, l₂, rfl, ?_⟩
      unfold metaCatalogRepresentative
      rw [hnone]
      show (if (c :: l₂).all (fun catalog => catalog.content.is_err) then (c :: l₂).head?
        else (c :: l₂).find? (fun catalog => catalog.content.is_loading)) = some c
      rw [if_pos (by rw [List.all_eq_true]; exact hall)]
      rfl
  · intro hnoready hex
    obtain ⟨c, hc, herr⟩ := hex
    have hnone : l.find? (fun catalog => catalog.content.is_ready) = none := by
      rw [List.find?_eq_none]
      intro x hx
      simp [hnoready x hx]
    have hallfalse : ¬(l.all (fun catalog => catalog.content.is_err) = true) := by
      intro hall
      rw [List.all_eq_true] at hall
      have h2 := hall c hc
      rw [herr] at h2
      exact Bool.false_ne_true h2
    have hloadsome : (l.find? (fun catalog => catalog.content.is_loading)).isSome := by
      rw [List.find?_isSome]
      exact ⟨c, hc, (Loadable.state_trichotomy c.content).2 (hnoready c hc) herr⟩
    obtain ⟨c₀, hc₀⟩ := Option.isSome_iff_exists.mp hloadsome
    obtain ⟨hp, l₁, l₂, hsplit, hbefore⟩ := (find?_eq_some_first _ l c₀).mp hc₀
    refine ⟨c₀, l₁, l₂, ?_, hsplit, hp, hbefore⟩
    unfold metaCatalogRepresentative
    rw [hnone]
    show (if l.all (fun catalog => catalog.content.is_err) then l.head?
      else l.find? (fun catalog => catalog.content.is_loading)) = some c₀
    rw [if_neg hallfalse]
    exact hc₀

/-- A sample resource request used in concrete witnesses. -/
def sampleRequest (b : String) : ResourceRequest :=
  { base := b, path := { resource := "meta", type := "movie", id := "tt1", extra := [] } }

/-- A sample meta item used in concrete witnesses. -/
def sampleMeta : MetaItem :=
  { id := "tt1", released := none, behavior_hints := { has_scheduled_videos := false },
    videos := [], trailer_streams := [], links := [] }

/-- A Ready meta catalog source for concrete witnesses. -/
def catReady : ResourceLoadable MetaItem :=
  { request := sampleRequest "https://a/", content := Loadable.ready sampleMeta }

/-- A Loading meta catalog source for concrete witnesses. -/
def catLoading : ResourceLoadable MetaItem :=
  { request := sampleRequest "https://b/", content := Loadable.loading }

/-- An Err meta catalog source for concrete witnesses. -/
def catErr : ResourceLoadable MetaItem :=
  { request := sampleRequest "https://c/", content := Loadable.err { message := "offline" } }

/-- Witness for C1: the selector picks the Ready entry after an Err entry,
picks the head of an all-Err list, and picks the Loading entry of a mixed
Err/Loading list. -/
theorem representative_selector_policy_witness :
    (∃ c l₁ l₂, metaCatalogRepresentative [catErr, catReady] = some c ∧
      [catErr, catReady] = l₁ ++ c :: l₂ ∧ c.content.is_ready = true ∧
      ∀ b ∈ l₁, b.content.is_ready = false) ∧
    (∃ c l₂, ([catErr, catErr] : List (ResourceLoadable MetaItem)) = c :: l₂ ∧
      metaCatalogRepresentative [catErr, catErr] = some c) ∧
    (∃ c l₁ l₂, metaCatalogRepresentative [catErr, catLoading] = some c ∧
      [catErr, catLoading] = l₁ ++ c :: l₂ ∧ c.content.is_loading = true ∧
      ∀ b ∈ l₁, b.content.is_loading = false) :=
  ⟨(representative_selector_policy [catErr, catReady]).1
      ⟨catReady, by decide, by decide⟩,
    (representative_selector_policy [catErr, catErr]).2.1 (by decide) (by decide),
    (representative_selector_policy [catErr, catLoading]).2.2.1 (by decide)
      ⟨catLoading, by decide, by decide⟩⟩

/-- C2: In the meta-details projection, for every video of a Ready
representative meta item, the computed upcoming flag is true iff the item
declares scheduled videos and its release timestamp is absent or strictly
after the current time (absent release timestamp treated as still possibly
upcoming). -/
theorem upcoming_flag_spec (meta_details : MetaDetails) (ctx : Ctx) (now : Int)
    (cat : ResourceLoadable MetaItem) (mi : MetaItem)
    (hrep : metaCatalogRepresentative meta_details.meta_catalogs = some cat)
    (hready : cat.content = Loadable.ready mi) :
    ∃ out, (serialize_meta_details meta_details ctx now).meta_catalog = some out ∧
      ∃ item, out.content = Loadable.ready item ∧
        item.videos.length = mi.videos.length ∧
        ∀ v ∈ item.videos,
          (v.upcomming = true ↔
            mi.behavior_hints.has_scheduled_videos = true ∧
              (mi.released = none ∨ ∃ t, mi.released = some t ∧ now < t)) := by
  simp only [serialize_meta_details, hrep, Option.map_some']
  refine ⟨_, rfl, ?_⟩
  simp only [hready]
  refine ⟨_, rfl, by simp, ?_⟩
  intro v hv
  obtain ⟨video, hvideo, rfl⟩ := List.mem_map.mp hv
  simp only []
  cases hrel : mi.released with
  | none => simp [hrel]
  | some t => simp [hrel]

/-- A meta item with a scheduled video and a future release timestamp, for
concrete witnesses. -/
def upcomingMeta : MetaItem :=
  { id := "tt2", released := some 10, behavior_hints := { has_scheduled_videos := true },
    videos := [{ id := "v1", trailer_streams := [] }], trailer_streams := [], links := [] }

/-- A Ready meta catalog source holding `upcomingMeta`. -/
def upcomingCat : ResourceLoadable MetaItem :=
  { request := sampleRequest "https://a/", content := Loadable.ready upcomingMeta }

/-- A meta-details state whose only meta catalog is `upcomingCat`. -/
def upcomingDetails : MetaDetails :=
  { selected := none, meta_catalogs := [upcomingCat], streams_catalogs := [] }

/-- An empty context (no installed addons, empty library, no notifications). -/
def sampleCtx : Ctx :=
  { profile := { addons := [] }, library := { items := [] },
    notifications := { items := [], last_updated := none, created := 0 } }

/-- Witness for C2: at time 3, the video of `upcomingMeta` (released at 10,
scheduled) is upcoming. -/
theorem upcoming_flag_spec_witness :
    ∃ out, (serialize_meta_details upcomingDetails sampleCtx 3).meta_catalog = some out ∧
      ∃ item, out.content = Loadable.ready item ∧
        item.videos.length = upcomingMeta.videos.length ∧
        ∀ v ∈ item.videos,
          (v.upcomming = true ↔
            upcomingMeta.behavior_hints.has_scheduled_videos = true ∧
              (upcomingMeta.released = none ∨
                ∃ t, upcomingMeta.released = some t ∧ (3 : Int) < t)) :=
  upcoming_flag_spec upcomingDetails sampleCtx 3 upcomingCat upcomingMeta (by decide) rfl

/-- Projecting the collected (request, link) pairs to link URLs forgets the
requests. -/
theorem collectMetaLinks_map_url (meta_catalogs : List (ResourceLoadable MetaItem)) :
    (collectMetaLinks meta_catalogs).map (fun p => p.2.url)
      = (meta_catalogs.flatMap (fun catalog =>
          match catalog.content with
          | Loadable.ready meta_item =>
              meta_item.links.filter (fun link => link.category = META_RESOURCE_NAME)
          | _ => [])).map (fun link => link.url) := by
  rw [collectMetaLinks, List.map_flatMap, List.map_flatMap]
  congr 1
  funext catalog
  cases h : catalog.content <;> simp [h, List.map_map, Function.comp]

/-- When every request in the list resolves to an installed addon, the
addon-resolution stage keeps every entry, with its URL verbatim. -/
theorem map_url_filterMap_resolve (profile : Profile) (l : List (ResourceRequest × Link))
    (h : ∀ p ∈ l, ∃ a ∈ profile.addons, a.transport_url = p.1.base) :
    (l.filterMap (resolveMetaExtension profile)).map (fun e => e.url)
      = l.map (fun p => p.2.url) := by
  induction l with
  | nil => rfl
  | cons p l ih =>
    obtain ⟨a, ha, hbase⟩ := h p (List.mem_cons_self _ _)
    have hsome : (profile.addons.find? (fun addon => addon.transport_url = p.1.base)).isSome := by
      rw [List.find?_isSome]
      exact ⟨a, ha, by simp [hbase]⟩
    obtain ⟨a₀, ha₀⟩ := Option.isSome_iff_exists.mp hsome
    have hres : resolveMetaExtension profile p = some
        { url := p.2.url, name := p.2.name,
          addon := { transport_url := a₀.transport_url,
                     manifest := { name := a₀.manifest.name, logo := a₀.manifest.logo } } } := by
      rw [resolveMetaExtension, ha₀]
      rfl
    rw [List.filterMap_cons, hres, List.map_cons]
    rw [ih (fun q hq => h q (List.mem_cons_of_mem _ hq))]
    rfl

/-- C3: in the meta-details projection, the meta-extension link addresses are
the Ready sources' meta-category link URLs in traversal order, collapsed to
unique URLs with the first occurrence retained, duplicates dropped and
relative order preserved (stated under the hypothesis that every collected
request resolves to an installed addon, so the later resolution stage drops
nothing). -/
theorem meta_extensions_dedup_first_order (meta_details : MetaDetails) (ctx : Ctx) (now : Int)
    (h : ∀ p ∈ collectMetaLinks meta_details.meta_catalogs,
      ∃ a ∈ ctx.profile.addons, a.transport_url = p.1.base) :
    ((serialize_meta_details meta_details ctx now).meta_extensions).map (fun e => e.url)
      = dedupFirst ((meta_details.meta_catalogs.flatMap (fun catalog =>
          match catalog.content with
          | Loadable.ready meta_item =>
              meta_item.links.filter (fun link => link.category = META_RESOURCE_NAME)
          | _ => [])).map (fun link => link.url)) := by
  have hme : (serialize_meta_details meta_details ctx now).meta_extensions
      = serializeMetaExtensions ctx.profile meta_details.meta_catalogs := rfl
  rw [hme, serializeMetaExtensions]
  rw [map_url_filterMap_resolve ctx.profile _ (fun p hp => by
    obtain ⟨-, l₁, l₂, hsplit, -⟩ := mem_uniqueByAux _ [] _ p hp
    exact h p (by rw [hsplit]; exact List.mem_append_right _ (List.mem_cons_self _ _)))]
  rw [map_uniqueBy, collectMetaLinks_map_url]

/-- A meta-extension link in the meta-resource category, for witnesses. -/
def extLink (nm u : String) : Link := { name := nm, category := "meta", url := u }

/-- First witness meta item, declaring links A and B. -/
def extMeta1 : MetaItem :=
  { id := "m1", released := none, behavior_hints := { has_scheduled_videos := false },
    videos := [], trailer_streams := [],
    links := [extLink "a" "https://x/A", extLink "b" "https://x/B"] }

/-- Second witness meta item, declaring links A (again) and C. -/
def extMeta2 : MetaItem :=
  { id := "m2", released := none, behavior_hints := { has_scheduled_videos := false },
    videos := [], trailer_streams := [],
    links := [extLink "a2" "https://x/A", extLink "c" "https://x/C"] }

/-- The installed addon serving both witness meta catalogs. -/
def extAddon : Descriptor :=
  { transport_url := "https://a/", manifest := { name := "Addon A", logo := none } }

/-- A context whose profile has `extAddon` installed. -/
def extCtx : Ctx :=
  { profile := { addons := [extAddon] }, library := { items := [] },
    notifications := { items := [], last_updated := none, created := 0 } }

/-- A meta-details state whose two Ready meta catalogs declare links
[A, B] and [A, C], so traversal order is [A, B, A, C]. -/
def extDetails : MetaDetails :=
  { selected := none,
    meta_catalogs :=
      [{ request := sampleRequest "https://a/", content := Loadable.ready extMeta1 },
       { request := sampleRequest "https://a/", content := Loadable.ready extMeta2 }],
    streams_catalogs := [] }

/-- Witness for C3: links seen in order [A, B, A, C] yield output order
[A, B, C]. -/
theorem meta_extensions_dedup_first_order_witness :
    ((serialize_meta_details extDetails extCtx 0).meta_extensions).map (fun e => e.url)
      = ["https://x/A", "https://x/B", "https://x/C"] :=
  (meta_extensions_dedup_first_order extDetails extCtx 0 (by decide)).trans (by decide)

/-- C4: in the discover projection the page number is
`1 + floor(skip / pageSize)` with `skip` parsed from the selected request's
extra parameters as an unsigned integer; an absent selection, a missing skip
parameter or an unparsable value gives page 1; in particular
page(skip=None)=1, page(skip=0)=1, page(skip=pageSize)=2 and
page(skip=2*pageSize-1)=2. -/
theorem discover_page_number_spec (discover : CatalogWithFilters MetaItemPreview) (ctx : Ctx) :
    (discover.selected = none → (serialize_discover discover ctx).page = 1) ∧
    (∀ sel, discover.selected = some sel →
      sel.request.path.get_extra_first_value SKIP_EXTRA_NAME = none →
      (serialize_discover discover ctx).page = 1) ∧
    (∀ sel v, discover.selected = some sel →
      sel.request.path.get_extra_first_value SKIP_EXTRA_NAME = some v → parseU32 v = none →
      (serialize_discover discover ctx).page = 1) ∧
    (∀ sel v skip, discover.selected = some sel →
      sel.request.path.get_extra_first_value SKIP_EXTRA_NAME = some v →
      parseU32 v = some skip →
      (serialize_discover discover ctx).page = 1 + skip / CATALOG_PAGE_SIZE) ∧
    (∀ sel, discover.selected = some sel →
      sel.request.path.get_extra_first_value SKIP_EXTRA_NAME = some "0" →
      (serialize_discover discover ctx).page = 1) ∧
    (∀ sel, discover.selected = some sel →
      sel.request.path.get_extra_first_value SKIP_EXTRA_NAME
        = some (toString CATALOG_PAGE_SIZE) →
      (serialize_discover discover ctx).page = 2) ∧
    (∀ sel, discover.selected = some sel →
      sel.request.path.get_extra_first_value SKIP_EXTRA_NAME
        = some (toString (2 * CATALOG_PAGE_SIZE - 1)) →
      (serialize_discover discover ctx).page = 2) := by
  have hpage : (serialize_discover discover ctx).page
      = ((discover.selected.bind (fun selected =>
          ((selected.request.path.get_extra_first_value SKIP_EXTRA_NAME).bind
            (fun value => parseU32 value)).map
            (fun skip => 1 + skip / CATALOG_PAGE_SIZE))).getD 1) := rfl
  refine ⟨?_, ?_, ?_, ?_, ?_, ?_, ?_⟩
  · intro h
    rw [hpage, h]
    rfl
  · intro sel hs hnone
    rw [hpage, hs]
    simp [hnone]
  · intro sel v hs hv hpu
    rw [hpage, hs]
    simp [hv, hpu]
  · intro sel v skip hs hv hskip
    rw [hpage, hs]
    simp [hv, hskip]
  · intro sel hs hv
    rw [hpage, hs]
    simp [hv, show parseU32 "0" = some 0 from by decide]
  · intro sel hs hv
    rw [hpage, hs]
    simp [hv, show parseU32 (toString CATALOG_PAGE_SIZE) = some 100 from by decide]
    decide
  · intro sel hs hv
    rw [hpage, hs]
    simp [hv, show parseU32 (toString (2 * CATALOG_PAGE_SIZE - 1)) = some 199 from by decide]
    decide

/-- A discover state with no selection, for witnesses. -/
def discNone : CatalogWithFilters MetaItemPreview :=
  { selected := none,
    selectable := { types := [], catalogs := [], extra := [], prev_page := none,
                    next_page := none },
    catalog := none }

/-- The selection of `discSkip100`: a request whose extra carries skip=100. -/
def discSkip100Sel : CatalogWithFiltersSelected :=
  { request :=
      { base := "https://a/"
        path :=
          { resource := "catalog"
            type := "movie"
            id := "top"
            extra := [{ name := "skip", value := "100" }] } } }

/-- A discover state whose selected request carries skip=100, for witnesses. -/
def discSkip100 : CatalogWithFilters MetaItemPreview :=
  { selected := some discSkip100Sel,
    selectable := { types := [], catalogs := [], extra := [], prev_page := none,
                    next_page := none },
    catalog := none }

/-- Witness for C4: no selection gives page 1; skip equal to the page size
gives page 2. -/
theorem discover_page_number_spec_witness :
    (serialize_discover discNone sampleCtx).page = 1 ∧
    (serialize_discover discSkip100 sampleCtx).page = 2 :=
  ⟨(discover_page_number_spec discNone sampleCtx).1 rfl,
   (discover_page_number_spec discSkip100 sampleCtx).2.2.2.2.2.1 discSkip100Sel rfl
     (by decide)⟩

/-- C5: for every entity given the inLibrary field (discover meta previews
and the meta-details representative item), inLibrary is true iff the entity's
id is present in the library index with removed = false; it is false when the
id is absent or present with removed = true. -/
theorem in_library_flag_spec (discover : CatalogWithFilters MetaItemPreview)
    (meta_details : MetaDetails) (ctx : Ctx) (now : Int) :
    (∀ rl items entry, (serialize_discover discover ctx).catalog = some rl →
      rl.content = Loadable.ready items → entry ∈ items →
      (entry.in_library = true ↔
        ∃ li, ctx.library.get entry.meta_item.id = some li ∧ li.removed = false)) ∧
    (∀ rl item, (serialize_meta_details meta_details ctx now).meta_catalog = some rl →
      rl.content = Loadable.ready item →
      (item.in_library = true ↔
        ∃ li, ctx.library.get item.meta_item.id = some li ∧ li.removed = false)) := by
  constructor
  · intro rl items entry hcat hready hmem
    simp only [serialize_discover] at hcat
    obtain ⟨cat, hc, hrl⟩ := Option.map_eq_some'.mp hcat
    subst hrl
    simp only [] at hready
    cases hcc : cat.content with
    | ready metas =>
      rw [hcc] at hready
      simp only [] at hready
      cases hready
      obtain ⟨mi, hmi, rfl⟩ := List.mem_map.mp hmem
      simp only []
      cases hgot : ctx.library.get mi.id with
      | none => simp [hgot]
      | some li => simp [hgot]
    | loading =>
      rw [hcc] at hready
      exact absurd hready (by simp)
    | err e =>
      rw [hcc] at hready
      exact absurd hready (by simp)
  · intro rl item hcat hready
    simp only [serialize_meta_details] at hcat
    obtain ⟨cat, hc, hrl⟩ := Option.map_eq_some'.mp hcat
    subst hrl
    simp only [] at hready
    cases hcc : cat.content with
    | ready mi =>
      rw [hcc] at hready
      simp only [] at hready
      cases hready
      simp only []
      cases hgot : ctx.library.get mi.id with
      | none => simp [hgot]
      | some li => simp [hgot]
    | loading =>
      rw [hcc] at hready
      exact absurd hready (by simp)
    | err e =>
      rw [hcc] at hready
      exact absurd hready (by simp)

/-- A context whose library holds item tt2 (not removed). -/
def libCtx : Ctx :=
  { profile := { addons := [] },
    library := { items := [("tt2", { id := "tt2", removed := false })] },
    notifications := { items := [], last_updated := none, created := 0 } }

/-- Witness for C5: the representative item tt2 of `upcomingDetails` is in the
library of `libCtx`. -/
theorem in_library_flag_spec_witness :
    ∃ rl item, (serialize_meta_details upcomingDetails libCtx 0).meta_catalog = some rl ∧
      rl.content = Loadable.ready item ∧
      (item.in_library = true ↔
        ∃ li, libCtx.library.get item.meta_item.id = some li ∧ li.removed = false) :=
  ⟨_, _, rfl, rfl, (in_library_flag_spec discNone upcomingDetails libCtx 0).2 _ _ rfl rfl⟩

/-- C6: in the remote-addons projection, for every addon entry of a Ready
catalog, the installed flag is true iff the entry's origin address exactly
equals the origin address of some addon in the profile's installed list,
independent of any other field of the entry. -/
theorem remote_addons_installed_flag_spec (remote_addons : CatalogWithFilters DescriptorPreview)
    (ctx : Ctx) :
    ∀ rl entries e, (serialize_remote_addons remote_addons ctx).catalog = some rl →
      rl.content = Loadable.ready entries → e ∈ entries →
      (e.installed = true ↔
        ∃ a ∈ ctx.profile.addons, a.transport_url = e.addon.transport_url) := by
  intro rl entries e hcat hready hmem
  simp only [serialize_remote_addons] at hcat
  obtain ⟨cat, hc, hrl⟩ := Option.map_eq_some'.mp hcat
  subst hrl
  simp only [] at hready
  cases hcc : cat.content with
  | ready addons =>
    rw [hcc] at hready
    simp only [] at hready
    cases hready
    obtain ⟨d, hd, rfl⟩ := List.mem_map.mp hmem
    simp only []
    rw [List.any_eq_true]
    constructor
    · rintro ⟨t, ht, hEq⟩
      obtain ⟨a, ha, rfl⟩ := List.mem_map.mp ht
      exact ⟨a, ha, by simpa using hEq⟩
    · rintro ⟨a, ha, hEq⟩
      exact ⟨a.transport_url, List.mem_map_of_mem _ ha, by simp [hEq]⟩
  | loading =>
    rw [hcc] at hready
    exact absurd hready (by simp)
  | err er =>
    rw [hcc] at hready
    exact absurd hready (by simp)

/-- A remote-catalog listing of the installed addon's origin, for witnesses. -/
def raEntry : DescriptorPreview :=
  { transport_url := "https://a/", manifest := { name := "Addon A listing", logo := none } }

/-- A remote-addons state whose catalog is Ready with one entry. -/
def raState : CatalogWithFilters DescriptorPreview :=
  { selected := none,
    selectable := { types := [], catalogs := [], extra := [], prev_page := none,
                    next_page := none },
    catalog := some { request := sampleRequest "https://r/",
                      content := Loadable.ready [raEntry] } }

/-- Witness for C6: the entry listing the installed origin is marked
installed. -/
theorem remote_addons_installed_flag_spec_witness :
    ∃ rl entries e, (serialize_remote_addons raState extCtx).catalog = some rl ∧
      rl.content = Loadable.ready entries ∧ e ∈ entries ∧
      (e.installed = true ↔
        ∃ a ∈ extCtx.profile.addons, a.transport_url = e.addon.transport_url) :=
  ⟨_, _, _, rfl, rfl, List.mem_cons_self _ _,
    remote_addons_installed_flag_spec raState extCtx _ _ _ rfl rfl
      (List.mem_cons_self _ _)⟩

/-- C7: addon-name resolution returns the display name of the first installed
addon whose origin address equals the argument, and returns absent (it is a
total function, never an error) when no installed addon matches; the
catalogs-with-extra serializer computes each source's addon name exactly this
way from the source's request base. -/
theorem resolve_addon_name_spec (profile : Profile) (base : String) :
    (resolveAddonName profile base = none ↔ ∀ a ∈ profile.addons, a.transport_url ≠ base) ∧
    (∀ n, resolveAddonName profile base = some n →
      ∃ a l₁ l₂, profile.addons = l₁ ++ a :: l₂ ∧ a.transport_url = base ∧
        a.manifest.name = n ∧ ∀ b ∈ l₁, b.transport_url ≠ base) ∧
    (∀ (catalogs_with_extra : CatalogsWithExtra) (ctx : Ctx),
      ((serialize_catalogs_with_extra catalogs_with_extra ctx).catalogs).map
          (fun c => c.addon_name)
        = catalogs_with_extra.catalogs.map
          (fun c => resolveAddonName ctx.profile c.request.base)) := by
  refine ⟨?_, ?_, ?_⟩
  · rw [resolveAddonName, Option.map_eq_none', List.find?_eq_none]
    constructor
    · intro h a ha
      simpa using h a ha
    · intro h a ha
      simp [h a ha]
  · intro n hn
    rw [resolveAddonName] at hn
    obtain ⟨a, ha, hname⟩ := Option.map_eq_some'.mp hn
    obtain ⟨hp, l₁, l₂, hsplit, hbefore⟩ := (find?_eq_some_first _ _ a).mp ha
    refine ⟨a, l₁, l₂, hsplit, by simpa using hp, hname, ?_⟩
    intro b hb
    simpa using hbefore b hb
  · intro m ctx
    simp only [serialize_catalogs_with_extra]
    rw [List.map_map]
    rfl

/-- Witness for C7: resolution is absent for an unknown origin and returns the
(first) matching addon's name for a known origin. -/
theorem resolve_addon_name_spec_witness :
    (resolveAddonName { addons := [extAddon] } "https://zzz/" = none) ∧
    (∃ a l₁ l₂, ({ addons := [extAddon] } : Profile).addons = l₁ ++ a :: l₂ ∧
      a.transport_url = "https://a/" ∧ a.manifest.name = "Addon A" ∧
      ∀ b ∈ l₁, b.transport_url ≠ "https://a/") :=
  ⟨(resolve_addon_name_spec { addons := [extAddon] } "https://zzz/").1.mpr (by decide),
   (resolve_addon_name_spec { addons := [extAddon] } "https://a/").2.1 "Addon A" (by decide)⟩

/-- C8: every assembler is a deterministic function of its inputs — two
invocations with (deep-)equal inputs produce equal outputs.  The current-time
source consumed by the meta-details assembler is one of its inputs (`now`),
per the spec's external-interface list. -/
theorem serializers_deterministic :
    (∀ (m m' : CatalogsWithExtra) (c c' : Ctx), m = m' → c = c' →
      serialize_catalogs_with_extra m c = serialize_catalogs_with_extra m' c') ∧
    (∀ (l l' : LibraryWithFilters) (r r' : String), l = l' → r = r' →
      serialize_library l r = serialize_library l' r') ∧
    (∀ (p p' : ContinueWatchingPreview), p = p' →
      serialize_continue_watching_preview p = serialize_continue_watching_preview p') ∧
    (∀ (d d' : CatalogWithFilters MetaItemPreview) (c c' : Ctx), d = d' → c = c' →
      serialize_discover d c = serialize_discover d' c') ∧
    (∀ (ra ra' : CatalogWithFilters DescriptorPreview) (c c' : Ctx), ra = ra' → c = c' →
      serialize_remote_addons ra c = serialize_remote_addons ra' c') ∧
    (∀ (ia ia' : InstalledAddonsWithFilters), ia = ia' →
      serialize_installed_addons ia = serialize_installed_addons ia') ∧
    (∀ (md md' : MetaDetails) (c c' : Ctx) (t t' : Int), md = md' → c = c' → t = t' →
      serialize_meta_details md c t = serialize_meta_details md' c' t') ∧
    (∀ (ss ss' : StreamingServer), ss = ss' →
      serialize_streaming_server ss = serialize_streaming_server ss') ∧
    (∀ (c c' : Ctx), c = c' → serialize_ctx c = serialize_ctx c') :=
  ⟨fun _ _ _ _ h1 h2 => by rw [h1, h2],
   fun _ _ _ _ h1 h2 => by rw [h1, h2],
   fun _ _ h => by rw [h],
   fun _ _ _ _ h1 h2 => by rw [h1, h2],
   fun _ _ _ _ h1 h2 => by rw [h1, h2],
   fun _ _ h => by rw [h],
   fun _ _ _ _ _ _ h1 h2 h3 => by rw [h1, h2, h3],
   fun _ _ h => by rw [h],
   fun _ _ h => by rw [h]⟩

/-- An empty catalogs-with-extra state, for witnesses. -/
def cweSample : CatalogsWithExtra := { selected := none, catalogs := [] }

/-- An empty library state, for witnesses. -/
def libSample : LibraryWithFilters :=
  { selected := none, selectable := { types := [], sorts := [] }, catalog := [] }

/-- An empty continue-watching state, for witnesses. -/
def cwSample : ContinueWatchingPreview := { library_items := [] }

/-- An empty installed-addons state, for witnesses. -/
def iaSample : InstalledAddonsWithFilters :=
  { selected := none, selectable := { types := [] }, catalog := [] }

/-- An idle streaming-server state, for witnesses. -/
def ssSample : StreamingServer :=
  { selected := { data := "srv" }, settings := Loadable.loading,
    base_url := Loadable.loading, playback_devices := Loadable.loading,
    torrent := none, statistics := none }

/-- Witness for C8: each assembler gives equal outputs on a repeated concrete
input. -/
theorem serializers_deterministic_witness :
    serialize_catalogs_with_extra cweSample sampleCtx
      = serialize_catalogs_with_extra cweSample sampleCtx ∧
    serialize_library libSample "library" = serialize_library libSample "library" ∧
    serialize_continue_watching_preview cwSample
      = serialize_continue_watching_preview cwSample ∧
    serialize_discover discNone sampleCtx = serialize_discover discNone sampleCtx ∧
    serialize_remote_addons raState extCtx = serialize_remote_addons raState extCtx ∧
    serialize_installed_addons iaSample = serialize_installed_addons iaSample ∧
    serialize_meta_details upcomingDetails sampleCtx 3
      = serialize_meta_details upcomingDetails sampleCtx 3 ∧
    serialize_streaming_server ssSample = serialize_streaming_server ssSample ∧
    serialize_ctx sampleCtx = serialize_ctx sampleCtx :=
  ⟨serializers_deterministic.1 cweSample cweSample sampleCtx sampleCtx rfl rfl,
   serializers_deterministic.2.1 libSample libSample "library" "library" rfl rfl,
   serializers_deterministic.2.2.1 cwSample cwSample rfl,
   serializers_deterministic.2.2.2.1 discNone discNone sampleCtx sampleCtx rfl rfl,
   serializers_deterministic.2.2.2.2.1 raState raState extCtx extCtx rfl rfl,
   serializers_deterministic.2.2.2.2.2.1 iaSample iaSample rfl,
   serializers_deterministic.2.2.2.2.2.2.1 upcomingDetails upcomingDetails sampleCtx
     sampleCtx 3 3 rfl rfl rfl,
   serializers_deterministic.2.2.2.2.2.2.2.1 ssSample ssSample rfl,
   serializers_deterministic.2.2.2.2.2.2.2.2 sampleCtx sampleCtx rfl⟩

/-- C9: duplicate meta-extension link addresses are collapsed before addon
resolution — when the first occurrence in traversal order of a link address
comes from a request whose origin address matches no installed addon, that
address is absent from the output entirely, even if a later occurrence of the
same address comes from a resolvable request (the hypotheses put no
constraint on the entries after the first occurrence). -/
theorem meta_extensions_dedup_before_resolution (meta_details : MetaDetails) (ctx : Ctx)
    (now : Int) (r : ResourceRequest) (link : Link)
    (l₁ l₂ : List (ResourceRequest × Link))
    (hsplit : collectMetaLinks meta_details.meta_catalogs = l₁ ++ (r, link) :: l₂)
    (hfirst : ∀ p ∈ l₁, p.2.url ≠ link.url)
    (hnores : ∀ a ∈ ctx.profile.addons, a.transport_url ≠ r.base) :
    ∀ e ∈ (serialize_meta_details meta_details ctx now).meta_extensions,
      e.url ≠ link.url := by
  intro e he heq
  have hme : (serialize_meta_details meta_details ctx now).meta_extensions
      = serializeMetaExtensions ctx.profile meta_details.meta_catalogs := rfl
  rw [hme, serializeMetaExtensions] at he
  obtain ⟨q, hq, hres⟩ := List.mem_filterMap.mp he
  rw [resolveMetaExtension] at hres
  obtain ⟨a₀, ha₀, hmk⟩ := Option.map_eq_some'.mp hres
  have heurl : e.url = q.2.url := by rw [← hmk]
  obtain ⟨-, la, lb, hsplit2, hbefore⟩ := mem_uniqueByAux _ [] _ q hq
  have hqkey : q.2.url = link.url := by rw [← heurl, heq]
  have hq_eq : q = (r, link) := by
    apply first_occurrence_unique (fun p : ResourceRequest × Link => p.2.url) q (r, link)
      la lb l₁ l₂
    · rw [← hsplit2, hsplit]
    · exact hbefore
    · exact hfirst
    · exact hqkey
  subst hq_eq
  exact hnores a₀ (List.mem_of_find?_eq_some ha₀) (by simpa using List.find?_some ha₀)

/-- A meta-details state whose first Ready meta catalog (links A, B) comes
from an origin with no installed addon, while the second (links A, C) comes
from the installed `extAddon`; traversal order of link addresses is
[A, B, A, C] and the first A is unresolvable. -/
def badDetails : MetaDetails :=
  { selected := none,
    meta_catalogs :=
      [{ request := sampleRequest "https://bad/", content := Loadable.ready extMeta1 },
       { request := sampleRequest "https://a/", content := Loadable.ready extMeta2 }],
    streams_catalogs := [] }

/-- Witness for C9: address A is absent from the output although its second
occurrence comes from the resolvable `extAddon` request. -/
theorem meta_extensions_dedup_before_resolution_witness :
    ((serialize_meta_details badDetails extCtx 0).meta_extensions).all
      (fun e => decide (e.url ≠ "https://x/A")) = true := by
  rw [List.all_eq_true]
  intro e he
  simpa using meta_extensions_dedup_before_resolution badDetails extCtx 0
    (sampleRequest "https://bad/") (extLink "a" "https://x/A") []
    [(sampleRequest "https://bad/", extLink "b" "https://x/B"),
     (sampleRequest "https://a/", extLink "a2" "https://x/A"),
     (sampleRequest "https://a/", extLink "c" "https://x/C")]
    (by decide) (by decide) (by decide) e he

/-- The `Forall₂` between a list and its image under a map follows from a
pointwise property. -/
theorem forall₂_map_self {α β : Type} (f : α → β) (P : α → β → Prop) (l : List α)
    (h : ∀ a ∈ l, P a (f a)) : List.Forall₂ P l (l.map f) := by
  induction l with
  | nil => exact List.Forall₂.nil
  | cons x xs ih =>
    exact List.Forall₂.cons (h x (List.mem_cons_self _ _))
      (ih fun a ha => h a (List.mem_cons_of_mem _ ha))

/-- C10: for every Ready stream source, each output stream pairs the input
stream with a navigation link derived from the stream, that source's own
request and the representative meta catalog's request whenever a
representative exists — whatever its state, including Loading or Err — and
from the stream alone exactly when no representative exists. -/
theorem stream_deep_links_use_representative_request (meta_details : MetaDetails) (ctx : Ctx)
    (now : Int) (cat : ResourceLoadable (List Stream)) (streams : List Stream)
    (hmem : cat ∈ meta_details.streams_catalogs)
    (hready : cat.content = Loadable.ready streams) :
    ∃ out ∈ (serialize_meta_details meta_details ctx now).streams_catalogs,
      ∃ outStreams, out.content = Loadable.ready outStreams ∧
        List.Forall₂ (fun (stream : Stream) (os : OutStream) =>
          os.stream = stream ∧
          (∀ rep, metaCatalogRepresentative meta_details.meta_catalogs = some rep →
            os.deep_links = StreamDeepLinks.ofStreamAndRequests stream cat.request rep.request) ∧
          (metaCatalogRepresentative meta_details.meta_catalogs = none →
            os.deep_links = StreamDeepLinks.ofStream stream))
          streams outStreams := by
  refine ⟨_, List.mem_map_of_mem _ hmem, ?_⟩
  simp only [hready]
  refine ⟨_, rfl, ?_⟩
  apply forall₂_map_self
  intro stream hstream
  refine ⟨rfl, ?_, ?_⟩
  · intro rep hrep
    simp only [hrep]
  · intro hnone
    simp only [hnone]

/-- A Ready stream source, for witnesses. -/
def streamsCat : ResourceLoadable (List Stream) :=
  { request := sampleRequest "https://s/", content := Loadable.ready [{ data := "magnet:1" }] }

/-- A meta-details state whose only meta catalog is in the Err state and which
has one Ready stream source: the representative exists (the Err catalog), so
stream links must still use its request. -/
def streamsDetails : MetaDetails :=
  { selected := none, meta_catalogs := [catErr], streams_catalogs := [streamsCat] }

/-- Witness for C10: with an Err-state representative, the Ready stream source
still derives each stream link from the stream, its own request and the
representative's request. -/
theorem stream_deep_links_use_representative_request_witness :
    ∃ out ∈ (serialize_meta_details streamsDetails sampleCtx 0).streams_catalogs,
      ∃ outStreams, out.content = Loadable.ready outStreams ∧
        List.Forall₂ (fun (stream : Stream) (os : OutStream) =>
          os.stream = stream ∧
          (∀ rep, metaCatalogRepresentative streamsDetails.meta_catalogs = some rep →
            os.deep_links
              = StreamDeepLinks.ofStreamAndRequests stream streamsCat.request rep.request) ∧
          (metaCatalogRepresentative streamsDetails.meta_catalogs = none →
            os.deep_links = StreamDeepLinks.ofStream stream))
          [{ data := "magnet:1" }] outStreams :=
  stream_deep_links_use_representative_request streamsDetails sampleCtx 0 streamsCat
    [{ data := "magnet:1" }] (List.mem_cons_self _ _) rfl

end StremioWeb
